import Mathlib

/-!
Verification of the Mathilda quiz bot (`bot.py`): a shallow embedding of the
answer-matching engine (`is_answer_correct`), the leaderboard upsert
(`update_leaderboard`), the message-handler state machine (`on_message`,
`mathquest`) and the no-repeat question draw, together with theorems settling
the specification claims.

Modelling conventions:
* Python strings are modelled as `List Char` (a Python `str` is a sequence of
  code points); the top-level entry points take Lean `String`s and work on
  `String.data`.  Python's `str.lower`/`str.strip` are modelled for the ASCII
  range, which covers every answer string in the question bank.
* Python floats are modelled by exact rationals `ℚ`.  `float(s)` is modelled
  on finite decimal literals (optional sign, digits, decimal point, optional
  exponent), which covers every numeric accepted form in the question bank;
  `inf`/`nan` and digit underscores are outside the modelled fragment.  All
  comparisons decided below have margins far above double rounding error, so
  the rational verdicts agree with the IEEE ones.
* The CAS collaborator (sympy, an external library) is modelled on the
  polynomial fragment its calls are used on: `parse_expr(..,
  transformations='all')` is a precedence parser with `=` converted to an
  equation, `^` already replaced by `**` by the caller; `expand`/`simplify`
  normalise to a canonical sparse multivariate polynomial over `ℚ`.  Inputs
  outside this fragment (function calls such as `sqrt(..)`, tuples, chained
  `=`) fail to parse, which the engine treats as a non-match for that pair,
  exactly as a sympy parse error is treated.
* Wall-clock timestamps (`last_active`, history timestamps) are not modelled.
-/

/-- ASCII whitespace stripped by Python `str.strip`. -/
def pySpace (c : Char) : Bool :=
  c = ' ' || c = '\t' || c = '\n' || c = '\r' || c = Char.ofNat 11 || c = Char.ofNat 12

/-- Python `str.lower` on one ASCII character. -/
def lowerC (c : Char) : Char :=
  if 'A' ≤ c && c ≤ 'Z' then Char.ofNat (c.toNat + 32) else c

/-- Python `str.lower` over the whole string. -/
def lowerL (s : List Char) : List Char := s.map lowerC

/-- Python `str.strip`: drop leading and trailing whitespace. -/
def trimL (s : List Char) : List Char :=
  ((s.dropWhile pySpace).reverse.dropWhile pySpace).reverse

/-- `s.lower().strip()`, the normalisation `is_answer_correct` applies first. -/
def normL (s : List Char) : List Char := trimL (lowerL s)

/-- `s.replace(',', '')`: Python removes every comma before `float(..)`. -/
def removeCommas (s : List Char) : List Char := s.filter (fun c => !(c = ','))

/-- `s.replace('^', '**')`, the caret substitution before the CAS parse. -/
def caretToStars (s : List Char) : List Char :=
  (s.map (fun c => if c = '^' then ['*', '*'] else [c])).flatten

/-- Is `pre` a prefix of `s` (used for Python substring search). -/
def isPrefixL : List Char → List Char → Bool
  | [], _ => true
  | _ :: _, [] => false
  | p :: ps, c :: cs => p = c && isPrefixL ps cs

/-- Python `pat in s`: does `pat` occur as a contiguous substring of `s`. -/
def containsSubL (pat : List Char) : List Char → Bool
  | [] => isPrefixL pat []
  | c :: rest => isPrefixL pat (c :: rest) || containsSubL pat rest

/-- Fuel-indexed body of `splitOnL`; every step consumes at least one
character, so fuel `s.length + 1` always suffices. -/
def splitOnFuel (sep : List Char) : Nat → List Char → List (List Char)
  | _, [] => [[]]
  | 0, s => [s]
  | fuel + 1, c :: rest =>
    if !sep.isEmpty && isPrefixL sep (c :: rest) then
      [] :: splitOnFuel sep fuel (List.drop (sep.length - 1) rest)
    else
      match splitOnFuel sep fuel rest with
      | [] => [[c]]
      | g :: gs => (c :: g) :: gs

/-- Python `s.split(sep)` for a non-empty separator: greedy left-to-right,
non-overlapping.  (`split('')` raises in Python and is never used.) -/
def splitOnL (sep s : List Char) : List (List Char) :=
  splitOnFuel sep (s.length + 1) s

/-- Value of a digit string (most significant first). -/
def digitsVal (ds : List Char) : Nat :=
  ds.foldl (fun a c => a * 10 + (c.toNat - 48)) 0

/-!
Rational arithmetic.  The `Rat` operations shipped by the library are marked
irreducible, which blocks proof-by-evaluation, so the embedding computes with
the following equivalent operations built on `mkRat`; the `q*_eq` lemmas
below identify each with the standard `ℚ` operation, so theorem statements
can use ordinary arithmetic notation.
-/

/-- Rational addition via `mkRat`. -/
def qAdd (a b : ℚ) : ℚ := mkRat (a.num * b.den + b.num * a.den) (a.den * b.den)

/-- Rational negation via `mkRat`. -/
def qNeg (a : ℚ) : ℚ := mkRat (-a.num) a.den

/-- Rational subtraction via `mkRat`. -/
def qSub (a b : ℚ) : ℚ := qAdd a (qNeg b)

/-- Rational multiplication via `mkRat`. -/
def qMul (a b : ℚ) : ℚ := mkRat (a.num * b.num) (a.den * b.den)

/-- Rational division via `mkRat` (division by zero yields zero, a case the
embedding never reaches: the engine rejects non-constant or zero divisors
before dividing). -/
def qDiv (a b : ℚ) : ℚ :=
  if b.num < 0 then mkRat (-(a.num * (b.den : Int))) (a.den * b.num.natAbs)
  else mkRat (a.num * (b.den : Int)) (a.den * b.num.natAbs)

/-- Decidable `≤` on `ℚ` by cross multiplication. -/
def qLeB (a b : ℚ) : Bool := decide (a.num * (b.den : Int) ≤ b.num * (a.den : Int))

/-- Absolute value on `ℚ`. -/
def qAbs (a : ℚ) : ℚ := if a.num < 0 then qNeg a else a

/-- Maximum on `ℚ`. -/
def qMax (a b : ℚ) : ℚ := if qLeB a b then b else a

/-- Embed a natural number into `ℚ`. -/
def qOfNat (n : Nat) : ℚ := mkRat (Int.ofNat n) 1

lemma qAdd_eq (a b : ℚ) : qAdd a b = a + b := by
  have ha : (a.den : ℚ) ≠ 0 := by exact_mod_cast a.den_nz
  have hb : (b.den : ℚ) ≠ 0 := by exact_mod_cast b.den_nz
  have h1 : (a.num : ℚ) = a * (a.den : ℚ) := (div_eq_iff ha).mp (Rat.num_div_den a)
  have h2 : (b.num : ℚ) = b * (b.den : ℚ) := (div_eq_iff hb).mp (Rat.num_div_den b)
  rw [qAdd, Rat.mkRat_eq_div]
  push_cast
  rw [div_eq_iff (mul_ne_zero ha hb), h1, h2]
  ring

lemma qNeg_eq (a : ℚ) : qNeg a = -a := by
  have ha : (a.den : ℚ) ≠ 0 := by exact_mod_cast a.den_nz
  rw [qNeg, Rat.mkRat_eq_div]
  push_cast
  rw [neg_div, Rat.num_div_den]

lemma qSub_eq (a b : ℚ) : qSub a b = a - b := by
  rw [qSub, qAdd_eq, qNeg_eq, sub_eq_add_neg]

lemma qMul_eq (a b : ℚ) : qMul a b = a * b := by
  have ha : (a.den : ℚ) ≠ 0 := by exact_mod_cast a.den_nz
  have hb : (b.den : ℚ) ≠ 0 := by exact_mod_cast b.den_nz
  have h1 : (a.num : ℚ) = a * (a.den : ℚ) := (div_eq_iff ha).mp (Rat.num_div_den a)
  have h2 : (b.num : ℚ) = b * (b.den : ℚ) := (div_eq_iff hb).mp (Rat.num_div_den b)
  rw [qMul, Rat.mkRat_eq_div]
  push_cast
  rw [div_eq_iff (mul_ne_zero ha hb), h1, h2]
  ring

lemma qLeB_iff (a b : ℚ) : qLeB a b = true ↔ a ≤ b := by
  rw [qLeB, decide_eq_true_eq, Rat.le_def]

lemma qAbs_eq (a : ℚ) : qAbs a = |a| := by
  rw [qAbs]
  by_cases h : a.num < 0
  · rw [if_pos h, qNeg_eq, abs_of_neg]
    exact Rat.num_neg.mp h
  · rw [if_neg h, abs_of_nonneg]
    exact Rat.num_nonneg.mp (le_of_not_lt h)

lemma qMax_eq (a b : ℚ) : qMax a b = max a b := by
  rw [qMax]
  by_cases h : qLeB a b = true
  · rw [if_pos h, max_eq_right ((qLeB_iff a b).mp h)]
  · rw [if_neg h]
    have : ¬a ≤ b := fun hab => h ((qLeB_iff a b).mpr hab)
    rw [max_eq_left (le_of_lt (lt_of_not_le this))]


/-- Mantissa together with an optional exponent part, the tail of the Python
float grammar.  Rejects any trailing garbage. -/
def parseExpPart (sgn : ℚ) (ip fp : List Char) (r : List Char) : Option ℚ :=
  let mant : ℚ :=
    qMul sgn (qAdd (qOfNat (digitsVal ip)) (mkRat (Int.ofNat (digitsVal fp)) (10 ^ fp.length)))
  match r with
  | [] => some mant
  | e :: r2 =>
    if e = 'e' || e = 'E' then
      let (esgn, r3) : Bool × List Char :=
        match r2 with
        | '+' :: t => (true, t)
        | '-' :: t => (false, t)
        | t => (true, t)
      let ed := r3.takeWhile Char.isDigit
      let rest := r3.dropWhile Char.isDigit
      if ed.isEmpty || !rest.isEmpty then none
      else some (if esgn then qMul mant (qOfNat (10 ^ digitsVal ed))
                 else qDiv mant (qOfNat (10 ^ digitsVal ed)))
    else none

/-- Python `float(s)` on finite decimal literals, returning an exact rational:
optional surrounding whitespace and sign, `digits [. digits]` or `. digits`,
optional `e`/`E` exponent.  `none` models `ValueError`. -/
def parseFloatL (s0 : List Char) : Option ℚ :=
  let s1 := trimL s0
  let (sgn, s2) : ℚ × List Char :=
    match s1 with
    | '+' :: r => (mkRat 1 1, r)
    | '-' :: r => (mkRat (-1) 1, r)
    | r => (mkRat 1 1, r)
  let ip := s2.takeWhile Char.isDigit
  let s3 := s2.dropWhile Char.isDigit
  match s3 with
  | '.' :: r =>
    let fp := r.takeWhile Char.isDigit
    let r2 := r.dropWhile Char.isDigit
    if ip.isEmpty && fp.isEmpty then none else parseExpPart sgn ip fp r2
  | r => if ip.isEmpty then none else parseExpPart sgn ip [] r

/-- `math.isclose(a, b, rel_tol, abs_tol)`:
`|a - b| <= max(rel_tol * max(|a|, |b|), abs_tol)` (see `iscloseB_iff`). -/
def iscloseB (a b relTol absTol : ℚ) : Bool :=
  qLeB (qAbs (qSub a b)) (qMax (qMul relTol (qMax (qAbs a) (qAbs b))) absTol)

lemma iscloseB_iff (a b relTol absTol : ℚ) :
    iscloseB a b relTol absTol = true ↔ |a - b| ≤ max (relTol * max |a| |b|) absTol := by
  rw [iscloseB, qSub_eq, qAbs_eq, qAbs_eq, qAbs_eq, qMax_eq, qMul_eq, qMax_eq, qLeB_iff]

/-- The default tolerance of `is_answer_correct` (`1e-6`). -/
def defaultTol : ℚ := mkRat 1 1000000

/-! ### Model of the CAS collaborator (sympy) on the polynomial fragment -/

/-- Tokens of the expression language fed to the CAS after the `^`→`**`
substitution (`=` is handled before tokenising). -/
inductive Tok where
  | num (q : ℚ)
  | ident (s : List Char)
  | plus | minus | star | slash | dstar | lparen | rparen
deriving DecidableEq

/-- Tokenise an expression string: decimal numbers, identifiers, operators.
Any other character is a parse failure (`none`), which the engine treats as a
non-match for the pair, as it treats a sympy `SympifyError`. -/
def tokenizeFuel : Nat → List Char → Option (List Tok)
  | _, [] => some []
  | 0, _ :: _ => none
  | fuel + 1, c :: rest =>
    if pySpace c then tokenizeFuel fuel rest
    else if c.isDigit || c = '.' then
      let ip := (c :: rest).takeWhile Char.isDigit
      let r1 := (c :: rest).dropWhile Char.isDigit
      match r1 with
      | '.' :: r2 =>
        let fp := r2.takeWhile Char.isDigit
        let r3 := r2.dropWhile Char.isDigit
        if ip.isEmpty && fp.isEmpty then none
        else
          (tokenizeFuel fuel r3).map
            (Tok.num (qAdd (qOfNat (digitsVal ip))
              (mkRat (Int.ofNat (digitsVal fp)) (10 ^ fp.length))) :: ·)
      | _ =>
        if ip.isEmpty then none
        else (tokenizeFuel fuel r1).map (Tok.num (qOfNat (digitsVal ip)) :: ·)
    else if c.isAlpha then
      let nm := (c :: rest).takeWhile (fun d => d.isAlpha || d.isDigit || d = '_')
      let r1 := (c :: rest).dropWhile (fun d => d.isAlpha || d.isDigit || d = '_')
      (tokenizeFuel fuel r1).map (Tok.ident nm :: ·)
    else if c = '+' then (tokenizeFuel fuel rest).map (Tok.plus :: ·)
    else if c = '-' then (tokenizeFuel fuel rest).map (Tok.minus :: ·)
    else if c = '*' then
      match rest with
      | '*' :: r2 => (tokenizeFuel fuel r2).map (Tok.dstar :: ·)
      | _ => (tokenizeFuel fuel rest).map (Tok.star :: ·)
    else if c = '/' then (tokenizeFuel fuel rest).map (Tok.slash :: ·)
    else if c = '(' then (tokenizeFuel fuel rest).map (Tok.lparen :: ·)
    else if c = ')' then (tokenizeFuel fuel rest).map (Tok.rparen :: ·)
    else none

/-- Abstract syntax of expressions the CAS parse produces. -/
inductive Expr where
  | num (q : ℚ)
  | var (s : List Char)
  | add (a b : Expr)
  | sub (a b : Expr)
  | mul (a b : Expr)
  | div (a b : Expr)
  | pow (a b : Expr)
  | neg (a : Expr)
deriving DecidableEq

mutual

/-- Additive level of the precedence parser (`+`, `-`). -/
def parseAdd : Nat → List Tok → Option (Expr × List Tok)
  | 0, _ => none
  | fuel + 1, ts => do
    let (e, ts1) ← parseMul fuel ts
    parseAddRest fuel e ts1

/-- Left fold of the additive chain. -/
def parseAddRest : Nat → Expr → List Tok → Option (Expr × List Tok)
  | 0, _, _ => none
  | fuel + 1, e, ts =>
    match ts with
    | Tok.plus :: ts1 => do
      let (f, ts2) ← parseMul fuel ts1
      parseAddRest fuel (Expr.add e f) ts2
    | Tok.minus :: ts1 => do
      let (f, ts2) ← parseMul fuel ts1
      parseAddRest fuel (Expr.sub e f) ts2
    | _ => some (e, ts)

/-- Multiplicative level (`*`, `/`). -/
def parseMul : Nat → List Tok → Option (Expr × List Tok)
  | 0, _ => none
  | fuel + 1, ts => do
    let (e, ts1) ← parseUnary fuel ts
    parseMulRest fuel e ts1

/-- Left fold of the multiplicative chain. -/
def parseMulRest : Nat → Expr → List Tok → Option (Expr × List Tok)
  | 0, _, _ => none
  | fuel + 1, e, ts =>
    match ts with
    | Tok.star :: ts1 => do
      let (f, ts2) ← parseUnary fuel ts1
      parseMulRest fuel (Expr.mul e f) ts2
    | Tok.slash :: ts1 => do
      let (f, ts2) ← parseUnary fuel ts1
      parseMulRest fuel (Expr.div e f) ts2
    | _ => some (e, ts)

/-- Unary sign: binds looser than `**`, as in Python (`-x**2 = -(x**2)`). -/
def parseUnary : Nat → List Tok → Option (Expr × List Tok)
  | 0, _ => none
  | fuel + 1, ts =>
    match ts with
    | Tok.minus :: ts1 => do
      let (e, ts2) ← parseUnary fuel ts1
      some (Expr.neg e, ts2)
    | Tok.plus :: ts1 => parseUnary fuel ts1
    | _ => parsePow fuel ts

/-- Power level: right associative, exponent at unary level (`2**-3`). -/
def parsePow : Nat → List Tok → Option (Expr × List Tok)
  | 0, _ => none
  | fuel + 1, ts => do
    let (a, ts1) ← parseAtom fuel ts
    match ts1 with
    | Tok.dstar :: ts2 => do
      let (b, ts3) ← parseUnary fuel ts2
      some (Expr.pow a b, ts3)
    | _ => some (a, ts1)

/-- Atoms: number, identifier, parenthesised expression. -/
def parseAtom : Nat → List Tok → Option (Expr × List Tok)
  | 0, _ => none
  | fuel + 1, ts =>
    match ts with
    | Tok.num q :: ts1 => some (Expr.num q, ts1)
    | Tok.ident s :: ts1 => some (Expr.var s, ts1)
    | Tok.lparen :: ts1 => do
      let (e, ts2) ← parseAdd fuel ts1
      match ts2 with
      | Tok.rparen :: ts3 => some (e, ts3)
      | _ => none
    | _ => none

end

/-- Parse a whole token list as one expression, requiring full consumption. -/
def parseToks (ts : List Tok) : Option Expr :=
  match parseAdd (ts.length * 4 + 16) ts with
  | some (e, []) => some e
  | _ => none

/-- `sp.parse_expr` on an `=`-free string of the modelled fragment. -/
def parseExprL (s : List Char) : Option Expr :=
  (tokenizeFuel (s.length + 1) s).bind parseToks

/-- `sp.parse_expr(.., transformations='all')` including the
`convert_equals_signs` transformation: a single `=` yields an equation
(`inr (lhs, rhs)`, sympy's `Equality`), otherwise a plain expression. -/
def parseMaybeEq (s : List Char) : Option (Expr ⊕ (Expr × Expr)) :=
  match splitOnL ['='] s with
  | [one] => (parseExprL one).map Sum.inl
  | [l, r] => do
    let el ← parseExprL l
    let er ← parseExprL r
    some (Sum.inr (el, er))
  | _ => none

/-- Lexicographic comparison of variable names. -/
def cmpChars : List Char → List Char → Ordering
  | [], [] => .eq
  | [], _ :: _ => .lt
  | _ :: _, [] => .gt
  | a :: as, b :: bs =>
    if a.toNat < b.toNat then .lt
    else if b.toNat < a.toNat then .gt
    else cmpChars as bs

/-- A monomial: variables with positive exponents, strictly sorted by name. -/
abbrev QMono := List (List Char × Nat)

/-- A polynomial in canonical form: (coefficient, monomial) pairs with
non-zero coefficients, strictly sorted by monomial.  This is the normal form
`sp.expand`/`sp.simplify` reduce the polynomial fragment to; a polynomial is
the zero expression exactly when the list is empty. -/
abbrev QPoly := List (ℚ × QMono)

/-- Fuel-indexed monomial merge; fuel `a.length + b.length + 1` suffices. -/
def monoMulFuel : Nat → QMono → QMono → QMono
  | _, [], m => m
  | _, x :: xs, [] => x :: xs
  | 0, xs, _ => xs
  | fuel + 1, (x, i) :: xs, (y, j) :: ys =>
    match cmpChars x y with
    | .lt => (x, i) :: monoMulFuel fuel xs ((y, j) :: ys)
    | .gt => (y, j) :: monoMulFuel fuel ((x, i) :: xs) ys
    | .eq => (x, i + j) :: monoMulFuel fuel xs ys

/-- Multiply two monomials (merge sorted variable lists, adding exponents). -/
def monoMul (a b : QMono) : QMono :=
  monoMulFuel (a.length + b.length + 1) a b

/-- Total order on monomials (lexicographic). -/
def cmpMono : QMono → QMono → Ordering
  | [], [] => .eq
  | [], _ :: _ => .lt
  | _ :: _, [] => .gt
  | (x, i) :: xs, (y, j) :: ys =>
    match cmpChars x y with
    | .lt => .lt
    | .gt => .gt
    | .eq =>
      if i < j then .lt
      else if j < i then .gt
      else cmpMono xs ys

/-- Add `c * m` into a canonical polynomial, keeping it canonical. -/
def polyInsert (c : ℚ) (m : QMono) : QPoly → QPoly
  | [] => if c.num = 0 then [] else [(c, m)]
  | (c1, m1) :: rest =>
    match cmpMono m m1 with
    | .lt => if c.num = 0 then (c1, m1) :: rest else (c, m) :: (c1, m1) :: rest
    | .gt => (c1, m1) :: polyInsert c m rest
    | .eq => if (qAdd c c1).num = 0 then rest else (qAdd c c1, m1) :: rest

/-- Polynomial addition. -/
def polyAdd (p q : QPoly) : QPoly :=
  q.foldl (fun acc cm => polyInsert cm.1 cm.2 acc) p

/-- Scale a polynomial by a rational constant. -/
def polyScale (k : ℚ) (p : QPoly) : QPoly :=
  if k.num = 0 then [] else p.map (fun cm => (qMul k cm.1, cm.2))

/-- Polynomial multiplication. -/
def polyMul (p q : QPoly) : QPoly :=
  p.foldl (fun acc cm =>
    q.foldl (fun acc2 cm2 => polyInsert (qMul cm.1 cm2.1) (monoMul cm.2 cm2.2) acc2) acc) []

/-- Polynomial power with a natural exponent. -/
def polyPow (p : QPoly) : Nat → QPoly
  | 0 => [(mkRat 1 1, [])]
  | n + 1 => polyMul p (polyPow p n)

/-- `sp.expand`: normalise an expression to canonical polynomial form.
`none` models the cases where the expression leaves the polynomial fragment
(division by a non-constant, non-natural exponents); the engine treats that
like any other CAS failure, as a non-match for the pair. -/
def toPoly : Expr → Option QPoly
  | .num q => some (if q.num = 0 then [] else [(q, [])])
  | .var s => some [(1, [(s, 1)])]
  | .add a b => do
    let pa ← toPoly a
    let pb ← toPoly b
    some (polyAdd pa pb)
  | .sub a b => do
    let pa ← toPoly a
    let pb ← toPoly b
    some (polyAdd pa (polyScale (mkRat (-1) 1) pb))
  | .neg a => (toPoly a).map (polyScale (mkRat (-1) 1))
  | .mul a b => do
    let pa ← toPoly a
    let pb ← toPoly b
    some (polyMul pa pb)
  | .div a b => do
    let pa ← toPoly a
    let pb ← toPoly b
    match pb with
    | [(c, [])] => some (polyScale (qDiv (mkRat 1 1) c) pa)
    | _ => none
  | .pow a b => do
    let pa ← toPoly a
    let pb ← toPoly b
    match pb with
    | [] => some [(1, [])]
    | [(c, [])] => if c.den = 1 && 0 ≤ c.num then some (polyPow pa c.num.toNat) else none
    | _ => none

/-- The symbolic comparison `is_answer_correct` runs for one algebraic
accepted form (source lines 465–510): after the `^`→`**` substitution, if
both sides contain `=` they are compared as equations — literal string
equality first, then `expand(lhsU − rhsU − (lhsC − rhsC)) == 0`; otherwise
both are parsed as expressions and `simplify(expand(user − correct))` is
accepted when it is a number within `math.isclose(.., 0, abs_tol=tolerance)`
(whose `rel_tol` stays at its `1e-9` default) or symbolically zero.  Every
parse failure yields `false`: a non-match for this pair only. -/
def symPairCheck (uN f : List Char) (tolerance : ℚ) : Bool :=
  let u2 := caretToStars uN
  let f2 := caretToStars f
  if u2.contains '=' && f2.contains '=' then
    if u2 = f2 then true
    else
      match parseMaybeEq u2, parseMaybeEq f2 with
      | some (Sum.inr (ul, ur)), some (Sum.inr (fl, fr)) =>
        match toPoly (Expr.sub (Expr.sub ul ur) (Expr.sub fl fr)) with
        | some p => decide (p = [])
        | none => false
      | _, _ => false
  else
    match parseMaybeEq u2, parseMaybeEq f2 with
    | some (Sum.inl ue), some (Sum.inl fe) =>
      match toPoly (Expr.sub ue fe) with
      | some p =>
        match p with
        | [] => true
        | [(c, m)] => if m.isEmpty then iscloseB c (mkRat 0 1) (mkRat 1 1000000000) tolerance else false
        | _ => false
      | none => false
    | _, _ => false

/-- The "looks algebraic" heuristic (source lines 450–452): the string
contains a letter or one of the symbols `()^*/+-=`. -/
def looksAlgebraic (s : List Char) : Bool :=
  s.any Char.isAlpha || "()^*/+-=".data.any (fun c => s.contains c)

/-- The accepted forms of a raw accepted-answer string: normalise, split on
`" or "`, strip each part (source line 425). -/
def formsOfL (specRaw : List Char) : List (List Char) :=
  (splitOnL " or ".data (normL specRaw)).map trimL

/-- The numeric comparison for one accepted form: both candidate and form
must parse as floats after comma removal, then `math.isclose` with the given
tolerance as both `rel_tol` and `abs_tol` (source lines 430–442). -/
def numPairCheck (uN f : List Char) (tolerance : ℚ) : Bool :=
  match parseFloatL (removeCommas uN), parseFloatL (removeCommas f) with
  | some a, some b => iscloseB a b tolerance tolerance
  | _, _ => false

/-- `is_answer_correct(user_answer, correct_answer_str, tolerance)` (source
lines 414–516): normalise, reject an empty candidate, split the accepted
string on `" or "`, then try literal set membership, numeric comparison
(only if the candidate parses as a float), and the symbolic comparison (only
if the candidate and at least one form look algebraic). -/
def is_answer_correct (user_answer correct_answer_str : String) (tolerance : ℚ) : Bool :=
  let user_ans_norm := normL user_answer.data
  if user_ans_norm.isEmpty then false
  else
    let possible_answers := formsOfL correct_answer_str.data
    if possible_answers.any (fun f => decide (user_ans_norm = f)) then true
    else if (match parseFloatL (removeCommas user_ans_norm) with
             | some a =>
               possible_answers.any (fun f =>
                 match parseFloatL (removeCommas f) with
                 | some b => iscloseB a b tolerance tolerance
                 | none => false)
             | none => false) then true
    else
      let algebraic_possible := possible_answers.filter looksAlgebraic
      if looksAlgebraic user_ans_norm && !algebraic_possible.isEmpty then
        algebraic_possible.any (fun f => symPairCheck user_ans_norm f tolerance)
      else false

/-- One accepted form matches the candidate when one of the three strategies
accepts the pair: literal equality, numeric closeness, or (when both sides
look algebraic) the symbolic comparison.  Used to state that the engine
evaluates forms independently. -/
def formMatch (uN f : List Char) (tolerance : ℚ) : Bool :=
  decide (uN = f) || numPairCheck uN f tolerance ||
    (if looksAlgebraic uN && looksAlgebraic f then symPairCheck uN f tolerance else false)

/-! ### Question bank and the no-repeat draw -/

/-- The static question bank `math_questions` (source lines 231–290):
question text mapped to its raw accepted-answer string. -/
def mathQuestions : List (String × String) := [
  ("What is 2 + 2?", "4"),
  ("What is 15 - 7?", "8"),
  ("What is 6 × 9?", "54"),
  ("What is 144 ÷ 12?", "12"),
  ("What is 3^4?", "81"),
  ("What is √144?", "12 or sqrt(144)"),
  ("What is 5! (factorial)?", "120"),
  ("What is 15% of 200?", "30 or 30.0"),
  ("What is 0.25 as a fraction?", "1/4"),
  ("What is 3/4 + 1/2?", "5/4 or 1.25 or 1 1/4"),
  ("What is 2^10?", "1024"),
  ("What is the next prime number after 7?", "11"),
  ("What is 1.5 × 2.5?", "3.75"),
  ("What is 1000 ÷ 8?", "125"),
  ("What is 17 × 3?", "51"),
  ("Solve for x: 3x + 5 = 20", "5 or x=5"),
  ("Factor x² - 9", "(x+3)(x-3) or (x-3)(x+3)"),
  ("Simplify 2(x + 3) + 4x", "6*x + 6"),
  ("Solve for y: 2y - 7 = 15", "11 or y=11"),
  ("Expand (x + 2)(x - 3)", "x**2 - x - 6"),
  ("What is the slope of the line y = 2x + 5?", "2"),
  ("Solve the system: x + y = 5, x - y = 1", "x=3, y=2 or (3, 2) or y=2, x=3"),
  ("Simplify (x³ * x⁵) / x²", "x**6"),
  ("Solve the quadratic: x² - 5x + 6 = 0", "x=2, x=3 or x=3, x=2 or 2, 3 or 3, 2"),
  ("What is the vertex of the parabola y = x² - 4x + 3?", "(2, -1)"),
  ("Area of a circle with radius 5 (use pi ≈ 3.14159)", "78.54"),
  ("Circumference of a circle with diameter 10 (use pi ≈ 3.14159)", "31.42"),
  ("Volume of a cube with side length 3", "27"),
  ("Length of the hypotenuse for a right triangle with legs 3 and 4", "5"),
  ("Sum of interior angles of a hexagon (in degrees)", "720"),
  ("Area of a triangle with base 6 and height 4", "12"),
  ("Surface area of a sphere with radius 2 (use pi ≈ 3.14159)", "50.27"),
  ("Volume of a cylinder with radius 3 and height 5 (use pi ≈ 3.14159)", "141.37"),
  ("Length of the diagonal of a 5 by 12 rectangle", "13"),
  ("Measure of one exterior angle of a regular octagon (in degrees)", "45"),
  ("Derivative of x³ with respect to x", "3*x**2"),
  ("Integral of 2x dx", "x**2"),
  ("Derivative of sin(x) with respect to x", "cos(x)"),
  ("Limit as x approaches 0 of (sin x)/x", "1"),
  ("Integral of e^x dx", "exp(x) or e**x"),
  ("If 5 apples cost $2.50, what is the price per apple in dollars?", "0.50 or 0.5"),
  ("A train travels 300 km in 2 hours. What is its average speed in km/h?", "150"),
  ("A rectangle has an area of 24 square units and a length of 6 units. What is its width?", "4"),
  ("What is the final price of a $50 item after a 20% discount?", "40 or $40"),
  ("If 3 pencils cost $1.20, how much do 5 pencils cost in dollars?", "2.00 or 2 or $2.00 or $2"),
  ("What is the answer to life, the universe, and everything?", "42"),
  ("Secret question - type skibidi sigma rizzler", "skibidi sigma rizzler")]

/-- The no-repeat draw after a correct answer (source lines 1513–1515):

    new_question, new_answer = random.choice(list(math_questions.items()))
    while new_question == question_text:
        new_question, new_answer = random.choice(list(math_questions.items()))

modelled against an arbitrary stream of random indices.  The source loop has
no retry cap, so it is embedded as a fuel-indexed approximant: `fuel` is the
number of draws the loop is allowed to make, and `none` means the loop is
still running after `fuel` draws — the code supplies no fallback value at any
depth. -/
def drawLoopFuel (stream : Nat → Nat) (excl : String) : Nat → Nat → Option (String × String)
  | 0, _ => none
  | fuel + 1, i =>
    let qa := mathQuestions.getD (stream i % mathQuestions.length) ("", "")
    if qa.1 = excl then drawLoopFuel stream excl fuel (i + 1) else some qa

/-! ### Score store -/

/-- A row of the `leaderboard` table (`last_active` not modelled). -/
structure ScoreRecord where
  points : Int
  highestStreak : Int
  totalCorrect : Int
deriving DecidableEq

/-- Point update of a string-keyed map. -/
def setF {α : Type} (m : String → Option α) (k : String) (v : Option α) :
    String → Option α :=
  fun x => if x = k then v else m x

/-- The `SELECT` phase of `update_leaderboard` (source lines 372–375): the
current row, or all-zero defaults when none exists (`result[i] if result
else 0`). -/
def readPhase (db : String → Option ScoreRecord) (user_id : String) : ScoreRecord :=
  match db user_id with
  | some r => r
  | none => ⟨0, 0, 0⟩

/-- The upsert phase of `update_leaderboard` (source lines 377–394): write
the freshly computed row for `user_id` with `INSERT .. ON CONFLICT(user_id)
DO UPDATE`, from a previously read snapshot. -/
def writePhase (db : String → Option ScoreRecord) (user_id : String) (snap : ScoreRecord)
    (points_change : Int) (correct_answer : Bool) (current_streak : Int) :
    String → Option ScoreRecord :=
  setF db user_id (some
    { points := max 0 (snap.points + points_change)
      highestStreak := max snap.highestStreak current_streak
      totalCorrect := snap.totalCorrect + (if correct_answer then 1 else 0) })

/-- `update_leaderboard(user_id, points_change, correct_answer,
current_streak)` (source lines 366–398): read the current row (defaults if
absent), compute the new points (floored at 0), highest streak (max) and
total correct (increment on a correct answer), then upsert. -/
def update_leaderboard (db : String → Option ScoreRecord) (user_id : String)
    (points_change : Int) (correct_answer : Bool) (current_streak : Int) :
    String → Option ScoreRecord :=
  writePhase db user_id (readPhase db user_id) points_change correct_answer current_streak

/-- `update_leaderboard` with its surrounding `try/except` (source lines
393–398): when the storage layer raises (`storageOk = false`) the exception
is swallowed, the write is lost, and control returns normally. -/
def update_leaderboard_caught (storageOk : Bool) (db : String → Option ScoreRecord)
    (user_id : String) (points_change : Int) (correct_answer : Bool) (current_streak : Int) :
    String → Option ScoreRecord :=
  if storageOk then update_leaderboard db user_id points_change correct_answer current_streak
  else db

/-- A row of the append-only `question_history` table (timestamp not
modelled). -/
structure AttemptRecord where
  userId : String
  question : String
  answer : String
  wasCorrect : Bool
deriving DecidableEq

/-- `log_question` with its surrounding `try/except` (source lines 401–410):
append one attempt row, or lose the write when storage raises. -/
def log_question_caught (storageOk : Bool) (hist : List AttemptRecord)
    (user_id question answer : String) (correct : Bool) : List AttemptRecord :=
  if storageOk then hist ++ [⟨user_id, question, answer, correct⟩] else hist

/-! ### The controller state machine -/

/-- One entry of `bot.math_answers`: the in-flight quiz session (source line
215): posed question, raw accepted-answer string, and the user's streak when
the question was posed. -/
structure Session where
  question : String
  answer : String
  streak : Int
deriving DecidableEq

/-- The bot's mutable state: the three in-memory per-user dictionaries
(source lines 215–217), the `leaderboard` table and the `question_history`
table. -/
structure SysState where
  mathAnswers : String → Option Session
  questionStreaks : String → Option Int
  conversationStates : String → Option String
  db : String → Option ScoreRecord
  history : List AttemptRecord

/-- The observable result of handling one inbound event, mirroring the embed
the handler sends (or the silent return). -/
inductive Outcome where
  | notApplicable
  | helpActivated
  | helpAlready
  | helpExited
  | helpForwarded
  | correct (pointsEarned : Int) (newStreak : Int) (nextQuestion : String)
  | incorrect (pointsLost : Int) (correctAnswer : String)
  | questStarted (question : String) (streak : Int)
  | questRefused
deriving DecidableEq

/-- The help-mode trigger phrases `bot.math_help_triggers` (source lines
220–223). -/
def mathHelpTriggers : List String :=
  ["help with math", "math question", "solve this", "how to calculate",
   "math help", "solve for", "how do i solve", "calculate", "math problem"]

/-- The help-mode cancel phrases (source line 1470). -/
def cancelWords : List String := ["cancel", "stop", "done", "exit"]

/-- Membership of a normalised string in a list of phrase strings. -/
def memPhrase (x : List Char) : List String → Bool
  | [] => false
  | p :: rest => if x = p.data then true else memPhrase x rest

/-- `on_message` (source lines 1427–1558) for a non-bot message, as a
function of the state.  Parameters beyond the message: `isCommand` models
`ctx_check.valid` (does the content parse as a bot command); `draw` is the
question/answer pair produced by the no-repeat draw of lines 1513–1515 when
a next question is needed (the draw itself is modelled by `drawLoopFuel`);
`storageOk` tells whether the storage layer's writes succeed or raise inside
`update_leaderboard`/`log_question`, where the exception is swallowed.
Branches, in source order: help-mode activation (guarded by *not* being a
command, the user *not* having an entry in `bot.math_answers`, and a trigger
phrase occurring as a substring); handling while in help mode (cancel word
deletes the conversation state, anything else is forwarded to the solver);
quiz-answer grading when the user has a session and no conversation state;
otherwise fall through to `bot.process_commands` (command side effects such
as `!mathquest` are modelled separately by `startQuest`). -/
def onMessage (st : SysState) (user_id content : String) (isCommand : Bool)
    (draw : String × String) (storageOk : Bool) : SysState × Outcome :=
  let contentLower := normL content.data
  let isTrigger := mathHelpTriggers.any (fun t => containsSubL t.data contentLower)
  let inMath := (st.mathAnswers user_id).isSome
  if !isCommand && !inMath && isTrigger then
    if st.conversationStates user_id = some "math_help" then (st, .helpAlready)
    else
      ({ st with conversationStates := setF st.conversationStates user_id (some "math_help") },
       .helpActivated)
  else if st.conversationStates user_id = some "math_help" then
    if memPhrase contentLower cancelWords then
      ({ st with conversationStates := setF st.conversationStates user_id none }, .helpExited)
    else (st, .helpForwarded)
  else
    match st.mathAnswers user_id, st.conversationStates user_id with
    | some question_data, none =>
      let current_streak := question_data.streak
      if is_answer_correct content question_data.answer defaultTol then
        let newStreak := current_streak + 1
        let points_earned := 10 + newStreak * 2
        { st with
            questionStreaks := setF st.questionStreaks user_id (some newStreak)
            db := update_leaderboard_caught storageOk st.db user_id points_earned true newStreak
            history := log_question_caught storageOk st.history user_id
              question_data.question content true
            mathAnswers := setF st.mathAnswers user_id
              (some ⟨draw.1, draw.2, newStreak⟩) }
          |> fun st1 => (st1, .correct points_earned newStreak draw.1)
      else
        { st with
            questionStreaks := setF st.questionStreaks user_id none
            db := update_leaderboard_caught storageOk st.db user_id (-5) false 0
            history := log_question_caught storageOk st.history user_id
              question_data.question content false
            mathAnswers := setF st.mathAnswers user_id none }
          |> fun st1 => (st1, .incorrect 5 question_data.answer)
    | _, _ => (st, .notApplicable)

/-- The `!mathquest` command (source lines 535–571): refused while the user
has a conversation state; otherwise store a new session carrying the user's
current in-memory streak (`bot.question_streaks.get(user_id, 0)`).  `draw`
is the initially drawn question/answer pair. -/
def startQuest (st : SysState) (user_id : String) (draw : String × String) :
    SysState × Outcome :=
  if (st.conversationStates user_id).isSome then (st, .questRefused)
  else
    let current_streak := (st.questionStreaks user_id).getD 0
    let st1 : SysState :=
      { st with
          mathAnswers := setF st.mathAnswers user_id (some ⟨draw.1, draw.2, current_streak⟩) }
    (st1, .questStarted draw.1 current_streak)

/-- The externally triggered events that mutate the bot's per-user state. -/
inductive Ev where
  | msg (user_id content : String) (isCommand : Bool) (draw : String × String) (storageOk : Bool)
  | quest (user_id : String) (draw : String × String)

/-- One transition of the state machine. -/
def stepEv (st : SysState) : Ev → SysState
  | .msg u c b d ok => (onMessage st u c b d ok).1
  | .quest u d => (startQuest st u d).1

/-- The state at process start: the three in-memory dictionaries are empty
(source lines 215–217); the durable `leaderboard` table holds arbitrary
prior contents `db0`. -/
def initState (db0 : String → Option ScoreRecord) : SysState :=
  ⟨fun _ => none, fun _ => none, fun _ => none, db0, []⟩

/-- Run the state machine over a list of events. -/
def runEv (db0 : String → Option ScoreRecord) (evs : List Ev) : SysState :=
  evs.foldl stepEv (initState db0)

/-! ### The two-update schedules for the lost-update analysis -/

/-- Two leaderboard updates for the same user applied serially: the second
`SELECT` sees the first upsert. -/
def serialTwo (db : String → Option ScoreRecord) (user_id : String)
    (d1 : Int) (c1 : Bool) (s1 : Int) (d2 : Int) (c2 : Bool) (s2 : Int) :
    String → Option ScoreRecord :=
  update_leaderboard (update_leaderboard db user_id d1 c1 s1) user_id d2 c2 s2

/-- The same two updates under the interleaving read₁–read₂–write₁–write₂:
both `SELECT`s run before either upsert, which the two separate
`db_execute` connections of `update_leaderboard` permit when the two
handler tasks run concurrently (no per-user lock exists anywhere in the
source).  The second write is computed from the stale snapshot. -/
def interleavedTwo (db : String → Option ScoreRecord) (user_id : String)
    (d1 : Int) (c1 : Bool) (s1 : Int) (d2 : Int) (c2 : Bool) (s2 : Int) :
    String → Option ScoreRecord :=
  let snap1 := readPhase db user_id
  let snap2 := readPhase db user_id
  writePhase (writePhase db user_id snap1 d1 c1 s1) user_id snap2 d2 c2 s2

/-! ### Helper lemmas -/

lemma setF_same {α : Type} (m : String → Option α) (k : String) (v : Option α) :
    setF m k v k = v := by
  simp [setF]

lemma setF_other {α : Type} (m : String → Option α) (k : String) (v : Option α)
    (x : String) (h : x ≠ k) : setF m k v x = m x := by
  simp [setF, h]

lemma any_filter_eq {α : Type} (q p : α → Bool) (l : List α) :
    (l.filter q).any p = l.any (fun x => q x && p x) := by
  induction l with
  | nil => rfl
  | cons x xs ih =>
    by_cases hq : q x = true
    · simp [List.filter_cons, hq, ih]
    · simp only [Bool.not_eq_true] at hq
      simp [List.filter_cons, hq, ih]

lemma if_chain_eq_or (a b c : Bool) :
    (if a then true else if b then true else c) = (a || b || c) := by
  cases a <;> cases b <;> simp

lemma if_gate_eq_and (a b : Bool) : (if a then b else false) = (a && b) := by
  cases a <;> simp

/-- The numeric stage of `is_answer_correct` as an independent per-form
check. -/
lemma numeric_stage_eq (uN : List Char) (forms : List (List Char)) (t : ℚ) :
    (match parseFloatL (removeCommas uN) with
     | some a =>
       forms.any (fun f =>
         match parseFloatL (removeCommas f) with
         | some b => iscloseB a b t t
         | none => false)
     | none => false) = forms.any (fun f => numPairCheck uN f t) := by
  cases hp : parseFloatL (removeCommas uN) with
  | none => simp [numPairCheck, hp]
  | some a =>
    refine congrArg forms.any (funext fun f => ?_)
    simp only [numPairCheck, hp]
    cases parseFloatL (removeCommas f) <;> rfl

/-- The symbolic stage of `is_answer_correct` as an independent per-form
check. -/
lemma symbolic_stage_eq (uN : List Char) (forms : List (List Char)) (t : ℚ) :
    (if looksAlgebraic uN && !(forms.filter looksAlgebraic).isEmpty then
       (forms.filter looksAlgebraic).any (fun f => symPairCheck uN f t)
     else false) =
    forms.any (fun f =>
      if looksAlgebraic uN && looksAlgebraic f then symPairCheck uN f t else false) := by
  have hR : forms.any
        (fun f => if looksAlgebraic uN && looksAlgebraic f then symPairCheck uN f t else false)
      = forms.any (fun f => (looksAlgebraic uN && looksAlgebraic f) && symPairCheck uN f t) :=
    congrArg forms.any (funext fun f => if_gate_eq_and _ _)
  rw [hR]
  cases hu : looksAlgebraic uN with
  | false => simp
  | true =>
    simp only [Bool.true_and]
    rw [← any_filter_eq looksAlgebraic (fun f => symPairCheck uN f t) forms]
    cases hfe : forms.filter looksAlgebraic with
    | nil => simp
    | cons x xs => simp

/-- The answer-matching engine evaluates each accepted form independently:
the result is `true` exactly when the candidate is non-blank and some single
form matches by one of the three strategies.  In particular a parse failure
on one form (numeric or symbolic, both folded into `formMatch`'s `Option`
handling) never affects the evaluation of the other forms. -/
lemma isCorrect_iff_formMatch (u spec : String) (t : ℚ) :
    is_answer_correct u spec t = true ↔
      (normL u.data ≠ [] ∧
        ∃ f ∈ formsOfL spec.data, formMatch (normL u.data) f t = true) := by
  simp only [is_answer_correct]
  cases he : (normL u.data).isEmpty with
  | true =>
    have : normL u.data = [] := List.isEmpty_iff.mp he
    simp [this]
  | false =>
    have hne : normL u.data ≠ [] := by
      intro h
      rw [h] at he
      simp at he
    simp only [Bool.false_eq_true, if_false, hne, ne_eq, not_false_eq_true, true_and]
    rw [if_chain_eq_or, numeric_stage_eq, symbolic_stage_eq]
    simp only [Bool.or_eq_true, List.any_eq_true]
    constructor
    · intro h
      rcases h with (⟨f, hf, hx⟩ | ⟨f, hf, hx⟩) | ⟨f, hf, hx⟩
      · refine ⟨f, hf, ?_⟩
        simp only [formMatch, Bool.or_eq_true]
        exact Or.inl (Or.inl hx)
      · refine ⟨f, hf, ?_⟩
        simp only [formMatch, Bool.or_eq_true]
        exact Or.inl (Or.inr hx)
      · refine ⟨f, hf, ?_⟩
        simp only [formMatch, Bool.or_eq_true]
        exact Or.inr hx
    · rintro ⟨f, hf, hx⟩
      simp only [formMatch, Bool.or_eq_true] at hx
      rcases hx with (hx | hx) | hx
      · exact Or.inl (Or.inl ⟨f, hf, hx⟩)
      · exact Or.inl (Or.inr ⟨f, hf, hx⟩)
      · exact Or.inr ⟨f, hf, hx⟩

lemma memPhrase_iff (x : List Char) (l : List String) :
    memPhrase x l = true ↔ ∃ p ∈ l, x = p.data := by
  induction l with
  | nil => simp [memPhrase]
  | cons p rest ih =>
    by_cases hx : x = p.data
    · simp [memPhrase, hx]
    · simp only [memPhrase, if_neg hx, ih]
      constructor
      · rintro ⟨q, hq, hxe⟩
        exact ⟨q, List.mem_cons_of_mem p hq, hxe⟩
      · rintro ⟨q, hq, hxe⟩
        rcases List.mem_cons.mp hq with rfl | hq2
        · exact absurd hxe hx
        · exact ⟨q, hq2, hxe⟩

/-- When the user has an active session and no conversation state,
`on_message` grades the content as a quiz answer: the help-trigger branch is
skipped (its guard requires the user *not* to be in `bot.math_answers`), the
help-mode branch is skipped, and the grading branch runs. -/
lemma onMessage_grading (st : SysState) (user_id content : String) (isCommand : Bool)
    (draw : String × String) (storageOk : Bool) (qd : Session)
    (hs : st.mathAnswers user_id = some qd)
    (hc : st.conversationStates user_id = none) :
    onMessage st user_id content isCommand draw storageOk =
      (if is_answer_correct content qd.answer defaultTol then
        ({ st with
            questionStreaks := setF st.questionStreaks user_id (some (qd.streak + 1))
            db := update_leaderboard_caught storageOk st.db user_id (10 + (qd.streak + 1) * 2)
                    true (qd.streak + 1)
            history := log_question_caught storageOk st.history user_id qd.question content true
            mathAnswers := setF st.mathAnswers user_id (some ⟨draw.1, draw.2, qd.streak + 1⟩) },
         Outcome.correct (10 + (qd.streak + 1) * 2) (qd.streak + 1) draw.1)
      else
        ({ st with
            questionStreaks := setF st.questionStreaks user_id none
            db := update_leaderboard_caught storageOk st.db user_id (-5) false 0
            history := log_question_caught storageOk st.history user_id qd.question content false
            mathAnswers := setF st.mathAnswers user_id none },
         Outcome.incorrect 5 qd.answer)) := by
  unfold onMessage
  rw [hs, hc]
  simp only [Option.isSome_some, Bool.not_true, Bool.and_false, Bool.false_and,
    Bool.false_eq_true, if_false, reduceCtorEq]

/-- While the user's conversation state is `math_help`, `on_message` never
grades: it either swallows a repeated trigger, exits on a cancel word, or
forwards the text to the solver. -/
lemma onMessage_helpmode (st : SysState) (user_id content : String) (isCommand : Bool)
    (draw : String × String) (storageOk : Bool)
    (hm : st.conversationStates user_id = some "math_help") :
    onMessage st user_id content isCommand draw storageOk =
      (if !isCommand && !(st.mathAnswers user_id).isSome
          && mathHelpTriggers.any (fun t => containsSubL t.data (normL content.data)) then
        (st, Outcome.helpAlready)
      else if memPhrase (normL content.data) cancelWords then
        ({ st with conversationStates := setF st.conversationStates user_id none },
         Outcome.helpExited)
      else (st, Outcome.helpForwarded)) := by
  unfold onMessage
  rw [hm]
  simp only [if_pos rfl, if_true]

/-- The per-user mutual exclusion between `bot.math_answers` and
`bot.conversation_states`. -/
def DisjointInv (st : SysState) : Prop :=
  ∀ u, st.mathAnswers u = none ∨ st.conversationStates u = none

lemma disjointInv_onMessage (st : SysState) (user_id content : String) (isCommand : Bool)
    (draw : String × String) (storageOk : Bool) (h : DisjointInv st) :
    DisjointInv ((onMessage st user_id content isCommand draw storageOk).1) := by
  intro v
  unfold onMessage
  cases htr : (!isCommand && !(st.mathAnswers user_id).isSome
      && mathHelpTriggers.any (fun t => containsSubL t.data (normL content.data))) with
  | true =>
    simp only [htr, if_true]
    by_cases hcs : st.conversationStates user_id = some "math_help"
    · simp only [hcs, if_pos rfl]
      exact h v
    · rw [if_neg hcs]
      by_cases hv : v = user_id
      · subst hv
        left
        have : (st.mathAnswers v).isSome = false := by
          rcases Bool.and_eq_true_iff.mp htr with ⟨h1, _⟩
          rcases Bool.and_eq_true_iff.mp h1 with ⟨_, h2⟩
          simpa using h2
        exact Option.not_isSome_iff_eq_none.mp (by simp [this])
      · rcases h v with hv2 | hv2
        · exact Or.inl hv2
        · right
          simpa [setF, hv] using hv2
  | false =>
    simp only [htr, Bool.false_eq_true, if_false]
    by_cases hcs : st.conversationStates user_id = some "math_help"
    · rw [if_pos hcs]
      by_cases hcw : memPhrase (normL content.data) cancelWords = true
      · rw [if_pos hcw]
        by_cases hv : v = user_id
        · subst hv
          right
          simp [setF]
        · rcases h v with hv2 | hv2
          · exact Or.inl hv2
          · right
            simpa [setF, hv] using hv2
      · rw [if_neg hcw]
        exact h v
    · rw [if_neg hcs]
      cases hma : st.mathAnswers user_id with
      | none => simpa using h v
      | some qd =>
        cases hcv : st.conversationStates user_id with
        | some m => simpa using h v
        | none =>
          simp only []
          by_cases hic : is_answer_correct content qd.answer defaultTol = true
          · simp only [hic, if_true]
            by_cases hv : v = user_id
            · subst hv
              right
              exact hcv
            · rcases h v with hv2 | hv2
              · left
                simpa [setF, hv] using hv2
              · exact Or.inr hv2
          · simp only [Bool.not_eq_true] at hic
            simp only [hic, Bool.false_eq_true, if_false]
            by_cases hv : v = user_id
            · subst hv
              left
              simp [setF]
            · rcases h v with hv2 | hv2
              · left
                simpa [setF, hv] using hv2
              · exact Or.inr hv2

lemma disjointInv_startQuest (st : SysState) (user_id : String) (draw : String × String)
    (h : DisjointInv st) : DisjointInv ((startQuest st user_id draw).1) := by
  intro v
  unfold startQuest
  cases hcs : (st.conversationStates user_id).isSome with
  | true =>
    simp only [hcs, if_true]
    exact h v
  | false =>
    simp only [hcs, Bool.false_eq_true, if_false]
    by_cases hv : v = user_id
    · subst hv
      right
      exact Option.not_isSome_iff_eq_none.mp (by simp [hcs])
    · rcases h v with hv2 | hv2
      · left
        simpa [setF, hv] using hv2
      · exact Or.inr hv2

lemma disjointInv_step (st : SysState) (e : Ev) (h : DisjointInv st) :
    DisjointInv (stepEv st e) := by
  cases e with
  | msg u c b d ok => exact disjointInv_onMessage st u c b d ok h
  | quest u d => exact disjointInv_startQuest st u d h

lemma disjointInv_foldl (evs : List Ev) (st : SysState) (h : DisjointInv st) :
    DisjointInv (evs.foldl stepEv st) := by
  induction evs generalizing st with
  | nil => exact h
  | cons e rest ih => exact ih (stepEv st e) (disjointInv_step st e h)

/-! ### Claim theorems -/

/-- C10: in every reachable state no user simultaneously has an active quiz
session (an entry in `bot.math_answers`) and a conversation state (an entry
in `bot.conversation_states`): `!mathquest` is refused while a conversation
state exists, and the help-mode trigger branch requires the user not to be
in `bot.math_answers`, so from the empty start-up dictionaries the two maps
stay mutually exclusive under every sequence of events. -/
theorem session_helpmode_disjoint (db0 : String → Option ScoreRecord) (evs : List Ev)
    (u : String) :
    (runEv db0 evs).mathAnswers u = none ∨ (runEv db0 evs).conversationStates u = none :=
  disjointInv_foldl evs (initState db0) (fun _ => Or.inl rfl) u

/-- C2: `update_leaderboard` is an upsert from the current record or
all-zero defaults: afterwards the stored record has
`points = max 0 (old.points + delta)` (so points are never negative),
`highestStreak = max old.highestStreak newStreakValue` (so it never
decreases), `totalCorrect = old.totalCorrect + (1 if wasCorrect else 0)`
(never decreasing), and no other user's row changes. -/
theorem update_leaderboard_upsert (db : String → Option ScoreRecord) (user_id : String)
    (points_change : Int) (correct_answer : Bool) (current_streak : Int) (other : String) :
    (update_leaderboard db user_id points_change correct_answer current_streak) user_id =
      some ⟨max 0 ((readPhase db user_id).points + points_change),
            max (readPhase db user_id).highestStreak current_streak,
            (readPhase db user_id).totalCorrect + (if correct_answer then 1 else 0)⟩
    ∧ 0 ≤ (readPhase (update_leaderboard db user_id points_change correct_answer current_streak)
            user_id).points
    ∧ (readPhase db user_id).highestStreak ≤
        (readPhase (update_leaderboard db user_id points_change correct_answer current_streak)
          user_id).highestStreak
    ∧ (readPhase db user_id).totalCorrect ≤
        (readPhase (update_leaderboard db user_id points_change correct_answer current_streak)
          user_id).totalCorrect
    ∧ (other ≠ user_id →
        (update_leaderboard db user_id points_change correct_answer current_streak) other =
          db other) := by
  refine ⟨by simp only [update_leaderboard, writePhase, setF_same], ?_, ?_, ?_, ?_⟩
  · simp only [update_leaderboard, writePhase, readPhase, setF_same]
    exact le_max_left 0 _
  · simp only [update_leaderboard, writePhase, readPhase, setF_same]
    exact le_max_left _ _
  · simp only [update_leaderboard, writePhase, readPhase, setF_same]
    cases correct_answer <;> simp
  · intro hne
    simp only [update_leaderboard, writePhase]
    exact setF_other db user_id _ other hne

/-- Witness for C2 at a concrete database. -/
theorem update_leaderboard_upsert_witness :
    (update_leaderboard (fun _ => none) "u" 12 true 1) "u" = some ⟨12, 1, 1⟩
    ∧ (update_leaderboard (fun _ => none) "u" 12 true 1) "v" = none := by
  have h := update_leaderboard_upsert (fun _ => none) "u" 12 true 1 "v"
  refine ⟨?_, h.2.2.2.2 (by decide)⟩
  rw [h.1]
  decide

/-- C9 counterexample: the claim asserts that two near-simultaneous messages
for the same user always leave a total ScoreRecord delta equal to the sum of
the two individual deltas.  `update_leaderboard` performs its `SELECT` and
its upsert as two separate `db_execute` calls on separate connections with no
per-user lock anywhere in the source, so the read₁–read₂–write₁–write₂
schedule is admitted; starting from an absent row with two correct answers
worth 12 and 14 points it stores 14, not 26 — the first update is lost. -/
theorem lost_update_counterexample :
    (readPhase (interleavedTwo (fun _ => none) "u" 12 true 1 14 true 2) "u").points = 14
    ∧ (readPhase (serialTwo (fun _ => none) "u" 12 true 1 14 true 2) "u").points = 12 + 14
    ∧ (14 : Int) ≠ 12 + 14 := by
  refine ⟨rfl, rfl, by decide⟩

/-- C9 amended: nothing in the source serializes two near-simultaneous
same-user messages, and `update_leaderboard` is a non-atomic two-phase
read-modify-write.  When the two updates are applied serially the stored
points are the sum of the deltas (away from the zero floor), but under the
stale-snapshot interleaving the stored points are `max 0 (old + delta2)`:
the first delta is lost. -/
theorem leaderboard_two_update_schedules (db : String → Option ScoreRecord)
    (user_id : String) (d1 : Int) (c1 : Bool) (s1 : Int) (d2 : Int) (c2 : Bool) (s2 : Int) :
    (0 ≤ (readPhase db user_id).points + d1 →
      0 ≤ (readPhase db user_id).points + d1 + d2 →
      (readPhase (serialTwo db user_id d1 c1 s1 d2 c2 s2) user_id).points =
        (readPhase db user_id).points + d1 + d2)
    ∧ (0 ≤ (readPhase db user_id).points + d2 →
        (readPhase (interleavedTwo db user_id d1 c1 s1 d2 c2 s2) user_id).points =
          (readPhase db user_id).points + d2) := by
  constructor
  · intro h1 h2
    simp only [serialTwo, update_leaderboard, writePhase, readPhase, setF_same]
    simp only [readPhase] at h1 h2
    omega
  · intro h1
    simp only [interleavedTwo, writePhase, readPhase, setF_same]
    simp only [readPhase] at h1
    omega

/-- Witness for C9's amended theorem at a concrete database. -/
theorem leaderboard_two_update_schedules_witness :
    (readPhase (serialTwo (fun _ => none) "w" 12 true 1 14 true 2) "w").points = 0 + 12 + 14
    ∧ (readPhase (interleavedTwo (fun _ => none) "w" 12 true 1 14 true 2) "w").points = 0 + 14 := by
  have h := leaderboard_two_update_schedules (fun _ => none) "w" 12 true 1 14 true 2
  exact ⟨h.1 (by decide) (by decide), h.2 (by decide)⟩

/-- C8 counterexample: the claim asserts the no-repeat retry is capped
(e.g. at 50 attempts) with a fallback to accepting a repeat.  The source
loop has no cap: against a random stream that keeps drawing the excluded
question, after 51 draws it has produced no result and no fallback repeat —
it is still looping. -/
theorem draw_retry_cap_counterexample :
    drawLoopFuel (fun _ => 0) "What is 2 + 2?" 51 0 = none := by decide

lemma drawLoopFuel_stuck (fuel i : Nat) :
    drawLoopFuel (fun _ => 0) "What is 2 + 2?" fuel i = none := by
  induction fuel generalizing i with
  | zero => rfl
  | succ n ih =>
    have hstep : drawLoopFuel (fun _ => 0) "What is 2 + 2?" (n + 1) i
        = drawLoopFuel (fun _ => 0) "What is 2 + 2?" n (i + 1) := rfl
    rw [hstep]
    exact ih (i + 1)

lemma drawLoopFuel_ne (stream : Nat → Nat) (excl q a : String) :
    ∀ fuel i, drawLoopFuel stream excl fuel i = some (q, a) → q ≠ excl := by
  intro fuel
  induction fuel with
  | zero =>
    intro i h
    exact absurd h (by simp [drawLoopFuel])
  | succ n ih =>
    intro i h
    simp only [drawLoopFuel] at h
    split at h
    · exact ih (i + 1) h
    · next hne =>
      injection h with h1
      rw [h1] at hne
      simpa using hne

/-- C8 amended: whenever the no-repeat loop returns, the drawn question
differs from the excluded one; but the retry is unbounded — there is no
attempt cap and no fallback to accepting a repeat, so against a stream that
always redraws the excluded question the loop never returns at any depth. -/
theorem draw_no_repeat_unbounded :
    (∀ (stream : Nat → Nat) (excl q a : String) (fuel i : Nat),
        drawLoopFuel stream excl fuel i = some (q, a) → q ≠ excl)
    ∧ (∀ fuel i, drawLoopFuel (fun _ => 0) "What is 2 + 2?" fuel i = none) :=
  ⟨fun stream excl q a fuel i h => drawLoopFuel_ne stream excl q a fuel i h,
   drawLoopFuel_stuck⟩

/-- Witness for C8's amended theorem: a stream that draws index 1 returns a
question different from the excluded one on the first try, and the constant
adversarial stream is still running after 60 draws. -/
theorem draw_no_repeat_unbounded_witness :
    ("What is 15 - 7?" : String) ≠ "What is 2 + 2?"
    ∧ drawLoopFuel (fun _ => 0) "What is 2 + 2?" 60 5 = none :=
  ⟨draw_no_repeat_unbounded.1 (fun _ => 1) "What is 2 + 2?" "What is 15 - 7?" "8" 1 0
      (by decide),
   draw_no_repeat_unbounded.2 60 5⟩

/-- C6: `is_answer_correct` is a total boolean function of its inputs (in
this embedding every internal parse failure is an `Option` miss, mirroring
the source's swallowed exceptions), and it evaluates every accepted form
independently: the result is `true` exactly when the candidate is non-blank
and some single form matches literally, numerically, or symbolically — so a
parse or simplification failure on one form is a non-match for that form
only and never aborts the evaluation of the remaining forms. -/
theorem evaluator_total_per_form (u spec : String) (t : ℚ) :
    is_answer_correct u spec t = true ↔
      (normL u.data ≠ [] ∧
        ∃ f ∈ formsOfL spec.data, formMatch (normL u.data) f t = true) :=
  isCorrect_iff_formMatch u spec t

/-- Witness for C6: the first accepted form `"abc"` fails both the numeric
parse and (paired with the non-algebraic candidate) the symbolic path, yet
evaluation continues and the second form `"6"` matches `"6.0"`
numerically. -/
theorem evaluator_total_per_form_witness :
    is_answer_correct "6.0" "abc or 6" defaultTol = true :=
  (evaluator_total_per_form "6.0" "abc or 6" defaultTol).mpr
    ⟨by decide, "6".data, by decide, by decide⟩

/-- C3: the accepted-answer string is split on `" or "` into normalised
forms, and a non-blank candidate equal to any form post-normalisation is
correct; on the spec `"5 or x=5"` the candidates `"5"`, `"X=5"` and
`" x = 5 "` are accepted (the last through the symbolic equation
comparison) while `"6"` is rejected. -/
theorem literal_match_and_split (u spec : String) (t : ℚ) :
    (normL u.data ≠ [] → normL u.data ∈ formsOfL spec.data →
      is_answer_correct u spec t = true)
    ∧ is_answer_correct "5" "5 or x=5" defaultTol = true
    ∧ is_answer_correct "X=5" "5 or x=5" defaultTol = true
    ∧ is_answer_correct " x = 5 " "5 or x=5" defaultTol = true
    ∧ is_answer_correct "6" "5 or x=5" defaultTol = false := by
  refine ⟨?_, by decide, by decide, by decide, by decide⟩
  intro hne hmem
  refine (isCorrect_iff_formMatch u spec t).mpr ⟨hne, normL u.data, hmem, ?_⟩
  simp [formMatch]

/-- Witness for C3's universal part at a concrete input. -/
theorem literal_match_and_split_witness :
    is_answer_correct "4" "4" defaultTol = true :=
  (literal_match_and_split "4" "4" defaultTol).1 (by decide) (by decide)

/-- C4 counterexample: the claim states `isCorrect("78.5399", {"78.54"})` is
true at the default tolerance `1e-6`.  It is false: `|78.5399 - 78.54| =
1e-4` exceeds `max(1e-6 x 78.54, 1e-6) ~ 7.854e-5`, no other accepted form
exists, and the candidate contains no algebraic indicator, so every strategy
misses. -/
theorem numeric_tolerance_example_counterexample :
    is_answer_correct "78.5399" "78.54" defaultTol = false := by decide

/-- C4 amended: if the candidate parses as a real number, the engine accepts
whenever some accepted form also parses and the two values satisfy the
combined tolerance `|a-b| <= max(rel_tol * max(|a|,|b|), abs_tol)` with the
given tolerance used for both and defaulting to `1e-6`; at that default,
`isCorrect("78.5399", {"78.54"})` is false (the difference `1e-4` exceeds
the combined tolerance) and `isCorrect("79", {"78.54"})` is false. -/
theorem numeric_tolerance_amended :
    (∀ (u spec : String) (t a b : ℚ) (f : List Char),
      parseFloatL (removeCommas (normL u.data)) = some a →
      f ∈ formsOfL spec.data →
      parseFloatL (removeCommas f) = some b →
      |a - b| ≤ max (t * max |a| |b|) t →
      is_answer_correct u spec t = true)
    ∧ is_answer_correct "79" "78.54" defaultTol = false
    ∧ is_answer_correct "78.5399" "78.54" defaultTol = false := by
  refine ⟨?_, by decide, by decide⟩
  intro u spec t a b f hpu hf hpf hclose
  have hne : normL u.data ≠ [] := by
    intro h
    rw [h] at hpu
    have hnone : parseFloatL (removeCommas ([] : List Char)) = none := rfl
    rw [hnone] at hpu
    exact Option.noConfusion hpu
  refine (isCorrect_iff_formMatch u spec t).mpr ⟨hne, f, hf, ?_⟩
  simp only [formMatch, Bool.or_eq_true]
  refine Or.inl (Or.inr ?_)
  simp only [numPairCheck, hpu, hpf]
  exact (iscloseB_iff a b t t).mpr hclose

/-- Witness for C4's amended sufficiency at a concrete numeric input within
tolerance. -/
theorem numeric_tolerance_amended_witness :
    is_answer_correct "78.540000001" "abc or 78.54" defaultTol = true :=
  numeric_tolerance_amended.1 "78.540000001" "abc or 78.54" defaultTol
    (mkRat 78540000001 1000000000) (mkRat 7854 100) "78.54".data
    (by decide) (by decide) (by decide)
    ((iscloseB_iff (mkRat 78540000001 1000000000) (mkRat 7854 100) defaultTol defaultTol).mp
      (by decide))

/-- C1: with an active session and no conversation state, a correct answer
awards `pointsDelta = 10 + 2 * newStreak` with `newStreak = streakAtPosing
+ 1` (first correct answer earns 12, second 14) and stores the new streak,
while an incorrect answer applies the fixed `-5` delta and resets the live
streak (the `bot.question_streaks` entry is deleted). -/
theorem quiz_scoring_policy (st : SysState) (user_id content : String) (isCommand : Bool)
    (draw : String × String) (qd : Session)
    (hs : st.mathAnswers user_id = some qd)
    (hc : st.conversationStates user_id = none) :
    (is_answer_correct content qd.answer defaultTol = true →
      (onMessage st user_id content isCommand draw true).2 =
        Outcome.correct (10 + (qd.streak + 1) * 2) (qd.streak + 1) draw.1
      ∧ (onMessage st user_id content isCommand draw true).1.questionStreaks user_id =
          some (qd.streak + 1)
      ∧ (readPhase ((onMessage st user_id content isCommand draw true).1.db) user_id).points =
          max 0 ((readPhase st.db user_id).points + (10 + (qd.streak + 1) * 2)))
    ∧ (is_answer_correct content qd.answer defaultTol = false →
      (onMessage st user_id content isCommand draw true).2 = Outcome.incorrect 5 qd.answer
      ∧ (onMessage st user_id content isCommand draw true).1.questionStreaks user_id = none
      ∧ (readPhase ((onMessage st user_id content isCommand draw true).1.db) user_id).points =
          max 0 ((readPhase st.db user_id).points + (-5))) := by
  have hM := onMessage_grading st user_id content isCommand draw true qd hs hc
  constructor
  · intro hcorrect
    rw [hM, if_pos hcorrect]
    refine ⟨rfl, by simp [setF_same], ?_⟩
    simp [update_leaderboard_caught, update_leaderboard, writePhase, readPhase, setF_same]
  · intro hwrong
    rw [hM, if_neg (by simp [hwrong])]
    refine ⟨rfl, by simp [setF_same], ?_⟩
    simp [update_leaderboard_caught, update_leaderboard, writePhase, readPhase, setF_same]

/-- A state with an active session for `"alice"` on the first question
(streak at posing 0) and otherwise empty stores. -/
def wState : SysState :=
  { mathAnswers := setF (fun _ => none) "alice" (some ⟨"What is 2 + 2?", "4", 0⟩)
    questionStreaks := fun _ => none
    conversationStates := fun _ => none
    db := fun _ => none
    history := [] }

/-- Like `wState` but one correct answer in: streak at posing 1. -/
def wState1 : SysState :=
  { mathAnswers := setF (fun _ => none) "alice"
      (some ⟨"Area of a circle with radius 5 (use pi ≈ 3.14159)", "78.54", 1⟩)
    questionStreaks := setF (fun _ => none) "alice" (some 1)
    conversationStates := fun _ => none
    db := setF (fun _ => none) "alice" (some ⟨12, 1, 1⟩)
    history := [] }

/-- Witness for C1: the first correct answer earns 12 points at streak 1,
the second earns 14 at streak 2, and an incorrect answer costs 5 points and
clears the live streak. -/
theorem quiz_scoring_policy_witness :
    (onMessage wState "alice" "4" false ("Q2", "A2") true).2 = Outcome.correct 12 1 "Q2"
    ∧ (onMessage wState1 "alice" "78.54" false ("Q3", "A3") true).2 = Outcome.correct 14 2 "Q3"
    ∧ (onMessage wState "alice" "7" false ("Q2", "A2") true).2 = Outcome.incorrect 5 "4"
    ∧ (onMessage wState "alice" "7" false ("Q2", "A2") true).1.questionStreaks "alice" = none := by
  have h1 := (quiz_scoring_policy wState "alice" "4" false ("Q2", "A2")
    ⟨"What is 2 + 2?", "4", 0⟩ (by decide) rfl).1 (by decide)
  have h2 := (quiz_scoring_policy wState1 "alice" "78.54" false ("Q3", "A3")
    ⟨"Area of a circle with radius 5 (use pi ≈ 3.14159)", "78.54", 1⟩ (by decide) rfl).1
    (by decide)
  have h3 := (quiz_scoring_policy wState "alice" "7" false ("Q2", "A2")
    ⟨"What is 2 + 2?", "4", 0⟩ (by decide) rfl).2 (by decide)
  exact ⟨h1.1, h2.1, h3.1, h3.2.1⟩

/-- C5 counterexample: the claim states that a user with an active quiz
session who sends a help-trigger phrase moves into HelpMode with the session
retained.  In the source the trigger branch is guarded by `not
user_in_math_answers`, so for `"alice"` with an active session the message
`"math help"` is graded as a quiz answer instead: no conversation state is
created, the session is destroyed, and the outcome is the incorrect-answer
penalty. -/
theorem help_trigger_during_quiz_counterexample :
    (onMessage wState "alice" "math help" false ("Q2", "A2") true).1.conversationStates
        "alice" = none
    ∧ (onMessage wState "alice" "math help" false ("Q2", "A2") true).1.mathAnswers
        "alice" = none
    ∧ (onMessage wState "alice" "math help" false ("Q2", "A2") true).2 =
        Outcome.incorrect 5 "4" := by
  refine ⟨by decide, by decide, by decide⟩

/-- C5 amended: a help-trigger phrase from a user with an active quiz
session does not enter help mode — the message is graded as a quiz answer
and the user's conversation state stays empty.  Help mode can only hold for
a user without a session (see the disjointness invariant), and while the
conversation state is `math_help` no inbound text is interpreted as a quiz
answer: the session map and the leaderboard are untouched, the outcome is
one of the help-mode outcomes, and a cancel phrase clears the conversation
state (returning the user to idle; there is no retained session to
resume). -/
theorem help_mode_isolation_amended (st : SysState) (user_id content : String)
    (isCommand : Bool) (draw : String × String) (storageOk : Bool) (qd : Session) :
    (st.mathAnswers user_id = some qd → st.conversationStates user_id = none →
      (onMessage st user_id content isCommand draw storageOk).1.conversationStates
        user_id = none)
    ∧ (st.conversationStates user_id = some "math_help" →
        (onMessage st user_id content isCommand draw storageOk).1.mathAnswers =
          st.mathAnswers
        ∧ (onMessage st user_id content isCommand draw storageOk).1.db = st.db
        ∧ ((onMessage st user_id content isCommand draw storageOk).2 = Outcome.helpAlready
            ∨ (onMessage st user_id content isCommand draw storageOk).2 = Outcome.helpExited
            ∨ (onMessage st user_id content isCommand draw storageOk).2 =
                Outcome.helpForwarded)
        ∧ (memPhrase (normL content.data) cancelWords = true →
            (onMessage st user_id content isCommand draw storageOk).1.conversationStates
              user_id = none)) := by
  constructor
  · intro hs hc
    have hM := onMessage_grading st user_id content isCommand draw storageOk qd hs hc
    by_cases hic : is_answer_correct content qd.answer defaultTol = true
    · rw [hM, if_pos hic]
      exact hc
    · rw [hM, if_neg hic]
      exact hc
  · intro hm
    have hM := onMessage_helpmode st user_id content isCommand draw storageOk hm
    have hsplit : ∀ {α : Type} (f : SysState × Outcome → α),
        f (onMessage st user_id content isCommand draw storageOk) =
          (if !isCommand && !(st.mathAnswers user_id).isSome
              && mathHelpTriggers.any (fun t => containsSubL t.data (normL content.data)) then
            f (st, Outcome.helpAlready)
          else if memPhrase (normL content.data) cancelWords then
            f ({ st with conversationStates := setF st.conversationStates user_id none },
               Outcome.helpExited)
          else f (st, Outcome.helpForwarded)) := by
      intro α f
      rw [hM]
      by_cases hb : (!isCommand && !(st.mathAnswers user_id).isSome
          && mathHelpTriggers.any fun t => containsSubL t.data (normL content.data)) = true
      · rw [if_pos hb, if_pos hb]
      · rw [if_neg hb, if_neg hb]
        by_cases hcw : memPhrase (normL content.data) cancelWords = true
        · rw [if_pos hcw, if_pos hcw]
        · rw [if_neg hcw, if_neg hcw]
    refine ⟨?_, ?_, ?_, ?_⟩
    · rw [hsplit (fun p => p.1.mathAnswers)]
      by_cases hb : (!isCommand && !(st.mathAnswers user_id).isSome
          && mathHelpTriggers.any fun t => containsSubL t.data (normL content.data)) = true
      · rw [if_pos hb]
      · rw [if_neg hb]
        by_cases hcw : memPhrase (normL content.data) cancelWords = true
        · rw [if_pos hcw]
        · rw [if_neg hcw]
    · rw [hsplit (fun p => p.1.db)]
      by_cases hb : (!isCommand && !(st.mathAnswers user_id).isSome
          && mathHelpTriggers.any fun t => containsSubL t.data (normL content.data)) = true
      · rw [if_pos hb]
      · rw [if_neg hb]
        by_cases hcw : memPhrase (normL content.data) cancelWords = true
        · rw [if_pos hcw]
        · rw [if_neg hcw]
    · rw [hsplit (fun p => p.2)]
      by_cases hb : (!isCommand && !(st.mathAnswers user_id).isSome
          && mathHelpTriggers.any fun t => containsSubL t.data (normL content.data)) = true
      · rw [if_pos hb]
        exact Or.inl rfl
      · rw [if_neg hb]
        by_cases hcw : memPhrase (normL content.data) cancelWords = true
        · rw [if_pos hcw]
          exact Or.inr (Or.inl rfl)
        · rw [if_neg hcw]
          exact Or.inr (Or.inr rfl)
    · intro hcw
      have hT : mathHelpTriggers.any (fun t => containsSubL t.data (normL content.data))
          = false := by
        rcases (memPhrase_iff _ _).mp hcw with ⟨p, hp, hxeq⟩
        rw [hxeq]
        simp only [cancelWords, List.mem_cons, List.mem_singleton] at hp
        rcases hp with rfl | rfl | rfl | rfl | h0
        · decide
        · decide
        · decide
        · decide
        · exact absurd h0 (List.not_mem_nil p)
      rw [hsplit (fun p => p.1.conversationStates user_id),
        if_neg (by simp [hT]), if_pos hcw]
      exact setF_same st.conversationStates user_id none

/-- A state with `"bob"` in math-help mode and no session. -/
def hState : SysState :=
  { mathAnswers := fun _ => none
    questionStreaks := fun _ => none
    conversationStates := setF (fun _ => none) "bob" (some "math_help")
    db := fun _ => none
    history := [] }

/-- Witness for C5's amended theorem: with an active session the trigger
phrase creates no conversation state; in help mode with no session, a
non-cancel message leaves the stores untouched and `cancel` exits. -/
theorem help_mode_isolation_amended_witness :
    (onMessage wState "alice" "math help" false ("Q2", "A2") true).1.conversationStates
        "alice" = none
    ∧ (onMessage hState "bob" "what is 2+2" false ("Q", "A") true).1.mathAnswers =
        hState.mathAnswers
    ∧ (onMessage hState "bob" "cancel" false ("Q", "A") true).1.conversationStates
        "bob" = none := by
  have h1 := (help_mode_isolation_amended wState "alice" "math help" false ("Q2", "A2") true
    ⟨"What is 2 + 2?", "4", 0⟩).1 (by decide) rfl
  have h2 := (help_mode_isolation_amended hState "bob" "what is 2+2" false ("Q", "A") true
    ⟨"", "", 0⟩).2 (by decide)
  have h3 := (help_mode_isolation_amended hState "bob" "cancel" false ("Q", "A") true
    ⟨"", "", 0⟩).2 (by decide)
  exact ⟨h1, h2.1, h3.2.2.2 (by decide)⟩

/-- C7: when the persistence layer raises inside `update_leaderboard` or
`log_question` (modelled by `storageOk = false`; both functions swallow the
exception), the in-memory transition still completes: the session is
replaced with the drawn question on a correct answer and deleted on an
incorrect one, the database and history are simply left unwritten, and the
handler returns the same outcome as in the success case instead of
aborting. -/
theorem storage_failure_transition (st : SysState) (user_id content : String)
    (isCommand : Bool) (draw : String × String) (qd : Session)
    (hs : st.mathAnswers user_id = some qd)
    (hc : st.conversationStates user_id = none) :
    (is_answer_correct content qd.answer defaultTol = true →
      (onMessage st user_id content isCommand draw false).1.mathAnswers user_id =
        some ⟨draw.1, draw.2, qd.streak + 1⟩)
    ∧ (is_answer_correct content qd.answer defaultTol = false →
      (onMessage st user_id content isCommand draw false).1.mathAnswers user_id = none)
    ∧ (onMessage st user_id content isCommand draw false).1.db = st.db
    ∧ (onMessage st user_id content isCommand draw false).1.history = st.history
    ∧ (onMessage st user_id content isCommand draw false).2 =
        (onMessage st user_id content isCommand draw true).2 := by
  have hMf := onMessage_grading st user_id content isCommand draw false qd hs hc
  have hMt := onMessage_grading st user_id content isCommand draw true qd hs hc
  by_cases hic : is_answer_correct content qd.answer defaultTol = true
  · rw [hMf, hMt, if_pos hic, if_pos hic]
    exact ⟨fun _ => setF_same _ _ _, fun hw => absurd hic (by simp [hw]), rfl, rfl, rfl⟩
  · rw [hMf, hMt, if_neg hic, if_neg hic]
    exact ⟨fun hcor => absurd hcor hic, fun _ => setF_same _ _ _, rfl, rfl, rfl⟩

/-- Witness for C7: with storage failing, an incorrect answer still deletes
the session, a correct answer still replaces it, and the database is
untouched. -/
theorem storage_failure_transition_witness :
    (onMessage wState "alice" "7" false ("Q2", "A2") false).1.mathAnswers "alice" = none
    ∧ (onMessage wState "alice" "4" false ("Q2", "A2") false).1.mathAnswers "alice" =
        some ⟨"Q2", "A2", 1⟩
    ∧ (onMessage wState "alice" "7" false ("Q2", "A2") false).1.db = wState.db := by
  have h1 := storage_failure_transition wState "alice" "7" false ("Q2", "A2")
    ⟨"What is 2 + 2?", "4", 0⟩ (by decide) rfl
  have h2 := storage_failure_transition wState "alice" "4" false ("Q2", "A2")
    ⟨"What is 2 + 2?", "4", 0⟩ (by decide) rfl
  exact ⟨h1.2.1 (by decide), h2.1 (by decide), h1.2.2.1⟩
